import Mathlib

/-
Verification of the reg2024 event-registration statistics pipeline.

Shallow embedding of the data-reshaping core of src/plots.py:
  - parse_status_dict / parse_sponsor_dict  (record normalizer)
  - split_tuplecol                          (tuple-column expansion)
  - read_parse_input                        (dataset builder)
  - read_old_dashboard                      (legacy per-day CSV loader)
  - daywise                                 (day-bucketing / re-indexing)
Python dicts are modelled as association lists (first binding wins),
pandas DataFrames as named column lists, and tuples as fixed-length lists.
-/

namespace Reg2024

/-- A Python dict from string keys to values, modelled as an association
list where the first binding for a key wins. -/
def Dict (α : Type) : Type := List (String × α)

/-- Model of Python `d.get(k, v0)`: the value bound to `k`, or `v0` if absent. -/
def dictGet {α : Type} (d : Dict α) (k : String) (v0 : α) : α :=
  (List.lookup k d).getD v0

/-- Embeds `parse_status_dict` from src/plots.py: reads the five recognized
status categories with `.get(key, 0)` and returns them in fixed order.
(The Python type hints are not enforced at runtime, so the value type is
a parameter.) -/
def parse_status_dict {α : Type} [Zero α] (status_dict : Dict α) : List α :=
  let new       := dictGet status_dict "new" 0
  let approved  := dictGet status_dict "approved" 0
  let partially := dictGet status_dict "partially paid" 0
  let paid      := dictGet status_dict "paid" 0
  let checkedin := dictGet status_dict "checked in" 0
  [new, approved, partially, paid, checkedin]

/-- Embeds `parse_sponsor_dict` from src/plots.py: reads the three sponsor
tiers with `.get(key, 0)` and returns them in fixed order. -/
def parse_sponsor_dict {α : Type} [Zero α] (sponsor_dict : Dict α) : List α :=
  let normal       := dictGet sponsor_dict "normal" 0
  let sponsor      := dictGet sponsor_dict "sponsor" 0
  let supersponsor := dictGet sponsor_dict "supersponsor" 0
  [normal, sponsor, supersponsor]

/-- The recognized status categories of the current (5-category) schema,
in the fixed output order of `parse_status_dict`. -/
def statusKeysCurrent : List String :=
  ["new", "approved", "partially paid", "paid", "checked in"]

/-- The recognized status categories of the legacy (4-category) schema. -/
def statusKeysLegacy : List String :=
  ["new", "approved", "partially_paid", "paid"]

/-- The recognized sponsor tiers, in the fixed output order of
`parse_sponsor_dict`. -/
def sponsorKeys : List String :=
  ["normal", "sponsor", "supersponsor"]

/-- Specification-side normalizer: one output per recognized key, in order,
defaulting missing keys to zero. -/
def normalize_by_keys {α : Type} [Zero α] (keys : List String) (d : Dict α) : List α :=
  keys.map (fun k => dictGet d k 0)

/-- Modelled from the spec: the legacy 4-category variant of the status
normalizer (spec section 4.1).  The legacy pipeline is not under src/; the
spec describes it as the same defaulting contract over the 4-category
recognized set. -/
def normalize_status_legacy {α : Type} [Zero α] (d : Dict α) : List α :=
  normalize_by_keys statusKeysLegacy d

/-- A normalized row as seen by the totals validator: the status-category
counts, the sponsor-tier counts, and the reported total count. -/
structure NRow where
  statusCounts : List Int
  sponsorCounts : List Int
  totalCount : Int
deriving DecidableEq, Repr

/-- Modelled from the spec: `validate_totals` (spec sections 4.2, 7, 8) is
absent from src/ — the spec records that the newer pipeline dropped the
cross-column consistency check while the older variant enforced it.  For
every row it checks sum(status categories) == total and
sum(sponsor tiers) == total, and fails on the first violating row with a
FatalConsistencyError citing the mismatch. -/
def validate_totals (rows : List NRow) : Except String (List NRow) :=
  match rows.find?
      (fun r => !(r.statusCounts.sum == r.totalCount && r.sponsorCounts.sum == r.totalCount)) with
  | some r =>
      Except.error
        (if r.statusCounts.sum ≠ r.totalCount then
          "FatalConsistencyError: status sum does not match total count"
        else
          "FatalConsistencyError: sponsor sum does not match total count")
  | none => Except.ok rows

lemma dictGet_cons_ne {α : Type} (d : Dict α) (k key : String) (v v0 : α) (h : key ≠ k) :
    dictGet ((k, v) :: d) key v0 = dictGet d key v0 := by
  simp only [dictGet, List.lookup_cons]
  have : (key == k) = false := beq_eq_false_iff_ne.mpr h
  simp [this]

/-- Claim C3: for every status mapping and schema version, the status
normalizer returns one value per recognized category of that schema (5 for
current, 4 for legacy), in fixed order, the supplied value for each present
recognized key and 0 for each missing one; unrecognized keys are ignored;
and the mapping new=3, paid=7 under the 4-category set normalizes to
(3, 0, 0, 7). -/
theorem parse_status_dict_spec {α : Type} [Zero α] (d : Dict α) (k : String) (v : α)
    (hcur : k ∉ statusKeysCurrent) (hleg : k ∉ statusKeysLegacy) :
    (parse_status_dict d).length = 5 ∧
    (normalize_status_legacy d).length = 4 ∧
    parse_status_dict d = normalize_by_keys statusKeysCurrent d ∧
    normalize_status_legacy d = normalize_by_keys statusKeysLegacy d ∧
    parse_status_dict ((k, v) :: d) = parse_status_dict d ∧
    normalize_status_legacy ((k, v) :: d) = normalize_status_legacy d ∧
    normalize_status_legacy ([("new", 3), ("paid", 7)] : Dict Int) = [3, 0, 0, 7] := by
  simp only [statusKeysCurrent, statusKeysLegacy, List.mem_cons, List.not_mem_nil,
    or_false, not_or] at hcur hleg
  obtain ⟨h1, h2, h3, h4, h5⟩ := hcur
  refine ⟨by simp [parse_status_dict], by simp [normalize_status_legacy, normalize_by_keys, statusKeysLegacy], ?_, rfl, ?_, ?_, by decide⟩
  · simp [parse_status_dict, normalize_by_keys, statusKeysCurrent]
  · simp only [parse_status_dict]
    rw [dictGet_cons_ne _ _ _ _ _ (Ne.symm h1), dictGet_cons_ne _ _ _ _ _ (Ne.symm h2),
      dictGet_cons_ne _ _ _ _ _ (Ne.symm h3), dictGet_cons_ne _ _ _ _ _ (Ne.symm h4),
      dictGet_cons_ne _ _ _ _ _ (Ne.symm h5)]
  · obtain ⟨g1, g2, g3, g4⟩ := hleg
    simp only [normalize_status_legacy, normalize_by_keys, statusKeysLegacy, List.map_cons,
      List.map_nil]
    rw [dictGet_cons_ne _ _ _ _ _ (Ne.symm g1), dictGet_cons_ne _ _ _ _ _ (Ne.symm g2),
      dictGet_cons_ne _ _ _ _ _ (Ne.symm g3), dictGet_cons_ne _ _ _ _ _ (Ne.symm g4)]

/-- Claim C3 witness: the theorem applied at a concrete unrecognized key. -/
theorem parse_status_dict_spec_witness :
    parse_status_dict (("pending", 11) :: [("new", 3), ("paid", 7)] : Dict Int) =
      parse_status_dict ([("new", 3), ("paid", 7)] : Dict Int) ∧
    normalize_status_legacy ([("new", 3), ("paid", 7)] : Dict Int) = [3, 0, 0, 7] :=
  ⟨(parse_status_dict_spec [("new", 3), ("paid", 7)] "pending" 11
      (by decide) (by decide)).2.2.2.2.1,
   (parse_status_dict_spec [("new", 3), ("paid", 7)] "pending" 11
      (by decide) (by decide)).2.2.2.2.2.2⟩

/-- Claim C7: for every sponsor mapping, the sponsor normalizer returns
exactly 3 values in the fixed order normal, sponsor, supersponsor, the
supplied value for each present tier and 0 for each absent tier; in
particular the mapping sponsor=5 normalizes to (0, 5, 0). -/
theorem parse_sponsor_dict_spec (d : Dict Int) :
    (parse_sponsor_dict d).length = 3 ∧
    parse_sponsor_dict d = normalize_by_keys sponsorKeys d ∧
    parse_sponsor_dict ([("sponsor", 5)] : Dict Int) = [0, 5, 0] := by
  refine ⟨by simp [parse_sponsor_dict], ?_, by decide⟩
  simp [parse_sponsor_dict, normalize_by_keys, sponsorKeys]

/-- Claim C1: `validate_totals` accepts a dataset iff every row has
status sum and sponsor sum both equal to its total count, and on a dataset
with a violating row it never returns a dataset. -/
theorem validate_totals_spec (rows : List NRow) :
    (validate_totals rows = Except.ok rows ↔
      ∀ r ∈ rows, r.statusCounts.sum = r.totalCount ∧ r.sponsorCounts.sum = r.totalCount) ∧
    ((∃ r ∈ rows, ¬(r.statusCounts.sum = r.totalCount ∧ r.sponsorCounts.sum = r.totalCount)) →
      ∀ out, validate_totals rows ≠ Except.ok out) := by
  rcases hfind : rows.find?
      (fun r => !(r.statusCounts.sum == r.totalCount && r.sponsorCounts.sum == r.totalCount)) with
    _ | r
  · have hall := List.find?_eq_none.mp hfind
    simp only [validate_totals, hfind]
    refine ⟨⟨fun _ r hr => ?_, fun _ => trivial⟩, ?_⟩
    · simpa using hall r hr
    · rintro ⟨r, hr, hbad⟩ _ _
      exact absurd (by simpa using hall r hr) hbad
  · have hmem := List.mem_of_find?_eq_some hfind
    have hp := List.find?_some hfind
    have hbad : ¬(r.statusCounts.sum = r.totalCount ∧ r.sponsorCounts.sum = r.totalCount) := by
      intro hand
      simp [hand.1, hand.2] at hp
    simp only [validate_totals, hfind]
    exact ⟨⟨fun h => (by cases h), fun h => absurd (h r hmem) hbad⟩, fun _ out h => (by cases h)⟩

/-- Claim C1 witness: the spec example — total 10, status sums to 10,
sponsor sums to 9 — is rejected. -/
theorem validate_totals_spec_witness :
    ∀ out, validate_totals [⟨[10], [9], 10⟩] ≠ Except.ok out :=
  (validate_totals_spec [⟨[10], [9], 10⟩]).2
    ⟨⟨[10], [9], 10⟩, by decide, by decide⟩

/-- Claim C10: the dict normalizers perform no validation of values — any
value stored under a recognized key (negative, non-integer, anything) is
returned unchanged at that key's fixed position, and 0 appears at a
position only when the recognized key is absent. -/
theorem parse_dict_values_unvalidated {α : Type} [Zero α] (d e : Dict α) (i j : Nat) (v w : α)
    (hi : i < 5) (hv : List.lookup (statusKeysCurrent.getD i "") d = some v)
    (hj : j < 3) (hw : List.lookup (sponsorKeys.getD j "") e = some w) :
    (parse_status_dict d).getD i 0 = v ∧
    (parse_sponsor_dict e).getD j 0 = w ∧
    (∀ i2, i2 < 5 → List.lookup (statusKeysCurrent.getD i2 "") d = none →
      (parse_status_dict d).getD i2 0 = 0) ∧
    (∀ j2, j2 < 3 → List.lookup (sponsorKeys.getD j2 "") e = none →
      (parse_sponsor_dict e).getD j2 0 = 0) := by
  refine ⟨?_, ?_, ?_, ?_⟩
  · interval_cases i <;>
      simp_all [parse_status_dict, statusKeysCurrent, dictGet]
  · interval_cases j <;>
      simp_all [parse_sponsor_dict, sponsorKeys, dictGet]
  · intro i2 hi2 hnone
    interval_cases i2 <;>
      simp only [statusKeysCurrent, List.getD_cons_zero, List.getD_cons_succ] at hnone <;>
      simp [parse_status_dict, dictGet, hnone]
  · intro j2 hj2 hnone
    interval_cases j2 <;>
      simp only [sponsorKeys, List.getD_cons_zero, List.getD_cons_succ] at hnone <;>
      simp [parse_sponsor_dict, dictGet, hnone]

/-- Claim C10 witness: a negative non-integer rational stored under a
recognized key passes through unchanged. -/
theorem parse_dict_values_unvalidated_witness :
    (parse_status_dict ([("new", -7/2)] : Dict ℚ)).getD 0 0 = -7/2 ∧
    (parse_sponsor_dict ([("normal", -7/2)] : Dict ℚ)).getD 0 0 = -7/2 :=
  ⟨(parse_dict_values_unvalidated [("new", -7/2)] [("normal", -7/2)] 0 0 (-7/2) (-7/2)
      (by decide) (by simp [statusKeysCurrent]) (by decide) (by simp [sponsorKeys])).1,
   (parse_dict_values_unvalidated [("new", -7/2)] [("normal", -7/2)] 0 0 (-7/2) (-7/2)
      (by decide) (by simp [statusKeysCurrent]) (by decide) (by simp [sponsorKeys])).2.1⟩

/-- A timestamp as carried by the log records (UTC): calendar date plus
time of day, minute resolution. -/
structure Timestamp where
  year : Nat
  month : Nat
  day : Nat
  hour : Nat
  minute : Nat
deriving DecidableEq, Repr

/-- Chronological ordering key of a timestamp. -/
def Timestamp.key (t : Timestamp) : Nat :=
  (((t.year * 13 + t.month) * 32 + t.day) * 24 + t.hour) * 60 + t.minute

/-- The decimal digit character for n modulo 10. -/
def digitChar10 (n : Nat) : Char :=
  Char.ofNat (48 + n % 10)

/-- Two-digit zero-padded decimal, as strftime renders the m and d fields. -/
def pad2 (n : Nat) : String :=
  String.mk [digitChar10 (n / 10), digitChar10 n]

/-- Four-digit zero-padded decimal, as strftime renders the Y field for
the calendar years this pipeline handles. -/
def pad4 (n : Nat) : String :=
  String.mk [digitChar10 (n / 1000), digitChar10 (n / 100), digitChar10 (n / 10), digitChar10 n]

/-- Model of strftime with format m/d/Y applied to a timestamp, as
`daywise` uses for its Date grouping column. -/
def Timestamp.dateStr (t : Timestamp) : String :=
  pad2 t.month ++ "/" ++ pad2 t.day ++ "/" ++ pad4 t.year

/-- A pandas column: integer counts, strings, timestamps, or cells holding
the fixed-arity tuples produced by the record normalizer. -/
inductive Col where
  | ints : List Int → Col
  | strs : List String → Col
  | times : List Timestamp → Col
  | tuples : List (List Int) → Col
deriving DecidableEq, Repr

/-- A pandas DataFrame, modelled as its ordered list of named columns. -/
abbrev DF := List (String × Col)

/-- Model of the pandas column assignment df[name] = c: overwrite the
column in place if the name exists, otherwise append a new column. -/
def dfSetCol (df : DF) (name : String) (c : Col) : DF :=
  if df.any (fun p => p.1 == name) then
    df.map (fun p => if p.1 = name then (name, c) else p)
  else df ++ [(name, c)]

/-- Model of df[name] for a tuple-valued column (the given name is a
tuple column in every call site). -/
def dfGetTuples (df : DF) (name : String) : List (List Int) :=
  match List.lookup name df with
  | some (Col.tuples cells) => cells
  | _ => []

/-- Embeds `split_tuplecol` from src/plots.py: sanity-check that every
cell of the input column has as many elements as there are output
columns (else sys.exit naming the column), then assign one new column per
tuple position and drop the input column. -/
def split_tuplecol (df : DF) (incol : String) (outcols : List String) : Except String DF :=
  let cells := dfGetTuples df incol
  if cells.all (fun x => x.length == outcols.length) then
    Except.ok
      ((outcols.enum.foldl
          (fun acc p => dfSetCol acc p.2 (Col.ints (cells.map (fun x => x.getD p.1 0)))) df).filter
        (fun p => p.1 != incol))
  else
    Except.error ("split.tuplecol: Malformed entry in column " ++ incol ++ ".")

/-- The well-formed outcome of `split_tuplecol`: the input column dropped,
one integer column per tuple position appended, named by the output names
in order. -/
def splitResult (df : DF) (incol : String) (outcols : List String)
    (cells : List (List Int)) : DF :=
  df.filter (fun p => p.1 != incol)
    ++ outcols.enum.map (fun p => (p.2, Col.ints (cells.map (fun x => x.getD p.1 0))))

/-- The integer entry of a column at a row index (0 for non-integer columns). -/
def colEntryInt (c : Col) (r : Nat) : Int :=
  match c with
  | Col.ints l => l.getD r 0
  | _ => 0

lemma lookup_eq_none_of_all_ne {β : Type} (k : String) (l : List (String × β))
    (h : ∀ p ∈ l, p.1 ≠ k) : List.lookup k l = none := by
  induction l with
  | nil => rfl
  | cons a t ih =>
    obtain ⟨a1, a2⟩ := a
    have hne : (k == a1) = false :=
      beq_eq_false_iff_ne.mpr (fun he => (h (a1, a2) (List.mem_cons_self _ _)) he.symm)
    rw [List.lookup_cons, hne]
    exact ih (fun p hp => h p (List.mem_cons_of_mem _ hp))

lemma foldl_dfSetCol_append (cells : List (List Int)) :
    ∀ (ps : List (Nat × String)) (df : DF),
      (∀ q ∈ ps, df.any (fun p => p.1 == q.2) = false) →
      List.Pairwise (fun a b => a.2 ≠ b.2) ps →
      ps.foldl (fun acc p => dfSetCol acc p.2 (Col.ints (cells.map (fun x => x.getD p.1 0)))) df
        = df ++ ps.map (fun p => (p.2, Col.ints (cells.map (fun x => x.getD p.1 0)))) := by
  intro ps
  induction ps with
  | nil => intro df _ _; simp
  | cons q rest ih =>
    intro df hfresh hpw
    have h1 : df.any (fun p => p.1 == q.2) = false := hfresh q (List.mem_cons_self _ _)
    have hset : dfSetCol df q.2 (Col.ints (cells.map (fun x => x.getD q.1 0)))
        = df ++ [(q.2, Col.ints (cells.map (fun x => x.getD q.1 0)))] := by
      simp [dfSetCol, h1]
    rw [List.foldl_cons, hset, ih]
    · simp
    · intro q2 hq2
      have h2 := hfresh q2 (List.mem_cons_of_mem _ hq2)
      have hne : q.2 ≠ q2.2 := (List.pairwise_cons.mp hpw).1 q2 hq2
      simp [List.any_append, h2, hne]
    · exact (List.pairwise_cons.mp hpw).2

lemma split_tuplecol_ok (df : DF) (incol : String) (outcols : List String)
    (cells : List (List Int))
    (hcol : dfGetTuples df incol = cells)
    (hlen : ∀ x ∈ cells, x.length = outcols.length)
    (hfresh : ∀ name ∈ outcols, df.any (fun p => p.1 == name) = false)
    (hnodup : outcols.Nodup)
    (hnin : incol ∉ outcols) :
    split_tuplecol df incol outcols = Except.ok (splitResult df incol outcols cells) := by
  have hall : cells.all (fun x => x.length == outcols.length) = true := by
    simp only [List.all_eq_true, beq_iff_eq]
    exact hlen
  have hfresh2 : ∀ q ∈ outcols.enum, df.any (fun p => p.1 == q.2) = false := by
    intro q hq
    refine hfresh q.2 ?_
    have := List.mem_map_of_mem Prod.snd hq
    rwa [List.enum_map_snd] at this
  have hpw : List.Pairwise (fun a b : Nat × String => a.2 ≠ b.2) outcols.enum := by
    rw [← List.pairwise_map (f := Prod.snd)]
    rw [List.enum_map_snd]
    exact hnodup
  rw [split_tuplecol, hcol]
  simp only [hall, if_true]
  rw [foldl_dfSetCol_append cells outcols.enum df hfresh2 hpw]
  rw [List.filter_append]
  have hkeep : (outcols.enum.map
      (fun p => (p.2, Col.ints (cells.map (fun x => x.getD p.1 0))))).filter
        (fun p => p.1 != incol)
      = outcols.enum.map (fun p => (p.2, Col.ints (cells.map (fun x => x.getD p.1 0)))) := by
    rw [List.filter_eq_self]
    intro a ha
    obtain ⟨q, hq, rfl⟩ := List.mem_map.mp ha
    have hmem : q.2 ∈ outcols := by
      have := List.mem_map_of_mem Prod.snd hq
      rwa [List.enum_map_snd] at this
    have : q.2 ≠ incol := fun he => hnin (he ▸ hmem)
    simpa [bne_iff_ne] using this
  rw [hkeep]
  rfl

/-- Claim C4: `split_tuplecol` fails with a fatal input error naming the
offending column whenever some cell of the tuple column has length
different from the number of output names; otherwise it appends one
integer column per tuple position, named by the output names in order and
holding that position's element of each row's tuple, and the original
tuple column is no longer present in the result. -/
theorem split_tuplecol_spec (df : DF) (incol : String) (outcols : List String)
    (cells : List (List Int))
    (hcol : dfGetTuples df incol = cells)
    (hfresh : ∀ name ∈ outcols, df.any (fun p => p.1 == name) = false)
    (hnodup : outcols.Nodup)
    (hnin : incol ∉ outcols) :
    ((∃ x ∈ cells, x.length ≠ outcols.length) →
      split_tuplecol df incol outcols =
        Except.error ("split.tuplecol: Malformed entry in column " ++ incol ++ ".")) ∧
    ((∀ x ∈ cells, x.length = outcols.length) →
      split_tuplecol df incol outcols = Except.ok (splitResult df incol outcols cells) ∧
      List.lookup incol (splitResult df incol outcols cells) = none) := by
  constructor
  · rintro ⟨x, hx, hlenx⟩
    rw [split_tuplecol, hcol]
    have hall : cells.all (fun x => x.length == outcols.length) = false := by
      simp only [List.all_eq_false]
      exact ⟨x, hx, by simpa using hlenx⟩
    simp only [hall, Bool.false_eq_true, if_false]
  · intro hlen
    refine ⟨split_tuplecol_ok df incol outcols cells hcol hlen hfresh hnodup hnin, ?_⟩
    rw [splitResult]
    rw [List.lookup_append]
    have h1 : List.lookup incol (df.filter (fun p => p.1 != incol)) = none := by
      refine lookup_eq_none_of_all_ne _ _ ?_
      intro p hp
      have := List.of_mem_filter hp
      simpa [bne_iff_ne] using this
    have h2 : List.lookup incol (outcols.enum.map
        (fun p => (p.2, Col.ints (cells.map (fun x => x.getD p.1 0))))) = none := by
      refine lookup_eq_none_of_all_ne _ _ ?_
      intro p hp
      obtain ⟨q, hq, rfl⟩ := List.mem_map.mp hp
      have hmem : q.2 ∈ outcols := by
        have := List.mem_map_of_mem Prod.snd hq
        rwa [List.enum_map_snd] at this
      exact fun he => hnin (he ▸ hmem)
    rw [h1, h2]
    rfl

/-- Claim C4 witness: the status tuple column of a one-row frame splits
into the five status columns, and a malformed cell is rejected. -/
theorem split_tuplecol_spec_witness :
    split_tuplecol [("TotalCount", Col.ints [10]), ("Status", Col.tuples [[3, 0, 0, 7, 0]])]
        "Status" ["new", "approved", "partial", "paid", "checkedin"]
      = Except.ok (splitResult
          [("TotalCount", Col.ints [10]), ("Status", Col.tuples [[3, 0, 0, 7, 0]])]
          "Status" ["new", "approved", "partial", "paid", "checkedin"] [[3, 0, 0, 7, 0]]) ∧
    split_tuplecol [("TotalCount", Col.ints [10]), ("Status", Col.tuples [[3, 0]])]
        "Status" ["new", "approved", "partial", "paid", "checkedin"]
      = Except.error ("split.tuplecol: Malformed entry in column " ++ "Status" ++ ".") :=
  ⟨((split_tuplecol_spec
      [("TotalCount", Col.ints [10]), ("Status", Col.tuples [[3, 0, 0, 7, 0]])]
      "Status" ["new", "approved", "partial", "paid", "checkedin"] [[3, 0, 0, 7, 0]]
      (by decide) (by decide) (by decide) (by decide)).2 (by decide)).1,
   (split_tuplecol_spec
      [("TotalCount", Col.ints [10]), ("Status", Col.tuples [[3, 0]])]
      "Status" ["new", "approved", "partial", "paid", "checkedin"] [[3, 0]]
      (by decide) (by decide) (by decide) (by decide)).1 ⟨[3, 0], by decide, by decide⟩⟩

lemma range_map_getD (l : List Int) :
    (List.range l.length).map (fun i => l.getD i 0) = l := by
  induction l with
  | nil => rfl
  | cons a t ih =>
    rw [List.length_cons, List.range_succ_eq_map, List.map_cons, List.map_map]
    simp only [Function.comp_def, Nat.succ_eq_add_one, List.getD_cons_zero,
      List.getD_cons_succ]
    rw [ih]

lemma getD_map_row (cells : List (List Int)) (r : Nat) (hr : r < cells.length)
    (f : List Int → Int) :
    (cells.map f).getD r 0 = f (cells.getD r []) := by
  rw [List.getD_eq_getElem?_getD, List.getElem?_map, List.getElem?_eq_getElem hr,
    List.getD_eq_getElem?_getD, List.getElem?_eq_getElem hr]
  rfl

/-- Claim C8: for every well-formed input (each cell of the tuple column
has exactly one element per output name), re-summing the per-position
columns that `split_tuplecol` appends gives back the sum of each row's
original tuple. -/
theorem split_tuplecol_sum (df : DF) (incol : String) (outcols : List String)
    (cells : List (List Int))
    (hcol : dfGetTuples df incol = cells)
    (hlen : ∀ x ∈ cells, x.length = outcols.length)
    (hfresh : ∀ name ∈ outcols, df.any (fun p => p.1 == name) = false)
    (hnodup : outcols.Nodup)
    (hnin : incol ∉ outcols) :
    split_tuplecol df incol outcols = Except.ok (splitResult df incol outcols cells) ∧
    ∀ r, r < cells.length →
      (((splitResult df incol outcols cells).drop
          (df.filter (fun p => p.1 != incol)).length).map
        (fun p => colEntryInt p.2 r)).sum = (cells.getD r []).sum := by
  refine ⟨split_tuplecol_ok df incol outcols cells hcol hlen hfresh hnodup hnin, ?_⟩
  intro r hr
  rw [splitResult, List.drop_left, List.map_map]
  have hentry : ((fun p : String × Col => colEntryInt p.2 r) ∘
        fun p : Nat × String => (p.2, Col.ints (cells.map (fun x => x.getD p.1 0))))
      = fun p : Nat × String => (cells.getD r []).getD p.1 0 := by
    funext p
    simp only [Function.comp, colEntryInt]
    exact getD_map_row cells r hr _
  rw [hentry]
  have hsplit : (fun p : Nat × String => (cells.getD r []).getD p.1 0)
      = (fun i => (cells.getD r []).getD i 0) ∘ Prod.fst := rfl
  rw [hsplit, ← List.map_map, List.enum_map_fst]
  have hmem : cells.getD r [] ∈ cells := by
    rw [List.getD_eq_getElem?_getD, List.getElem?_eq_getElem hr]
    exact List.getElem_mem hr
  rw [← hlen _ hmem, range_map_getD]

/-- Claim C8 witness: the concrete one-row status frame re-sums to the
original tuple sum. -/
theorem split_tuplecol_sum_witness :
    (((splitResult [("TotalCount", Col.ints [10]), ("Status", Col.tuples [[3, 0, 0, 7, 0]])]
          "Status" ["new", "approved", "partial", "paid", "checkedin"]
          [[3, 0, 0, 7, 0]]).drop
        (([("TotalCount", Col.ints [10]),
            ("Status", Col.tuples [[3, 0, 0, 7, 0]])] : DF).filter
          (fun p => p.1 != "Status")).length).map
      (fun p => colEntryInt p.2 0)).sum = ([3, 0, 0, 7, 0] : List Int).sum :=
  (split_tuplecol_sum
      [("TotalCount", Col.ints [10]), ("Status", Col.tuples [[3, 0, 0, 7, 0]])]
      "Status" ["new", "approved", "partial", "paid", "checkedin"] [[3, 0, 0, 7, 0]]
      (by decide) (by decide) (by decide) (by decide) (by decide)).2 0 (by decide)

/-- Codepoint-lexicographic comparison of character lists: the ordering
Python uses on str and pandas uses to sort string group keys. -/
def charLe : List Char → List Char → Bool
  | [], _ => true
  | _ :: _, [] => false
  | a :: as, b :: bs =>
    if a.toNat < b.toNat then true
    else if b.toNat < a.toNat then false
    else charLe as bs

/-- The string ordering used by the groupby key sort. -/
def leK (s t : String) : Prop := charLe s.data t.data = true

instance : DecidableRel leK :=
  fun s t => inferInstanceAs (Decidable (charLe s.data t.data = true))

lemma charLe_total : ∀ as bs : List Char, charLe as bs = true ∨ charLe bs as = true := by
  intro as
  induction as with
  | nil => intro bs; left; rfl
  | cons a as ih =>
    intro bs
    cases bs with
    | nil => right; rfl
    | cons b bs =>
      rcases Nat.lt_trichotomy a.toNat b.toNat with h | h | h
      · left; simp [charLe, h]
      · have h1 : ¬a.toNat < b.toNat := by omega
        have h2 : ¬b.toNat < a.toNat := by omega
        rcases ih bs with hc | hc
        · left; simp [charLe, h1, h2, hc]
        · right; simp [charLe, h1, h2, hc]
      · right; simp [charLe, h]

lemma charLe_trans :
    ∀ as bs cs : List Char, charLe as bs = true → charLe bs cs = true → charLe as cs = true := by
  intro as
  induction as with
  | nil => intro bs cs _ _; rfl
  | cons a as ih =>
    intro bs cs h1 h2
    cases bs with
    | nil => simp [charLe] at h1
    | cons b bs =>
      cases cs with
      | nil => simp [charLe] at h2
      | cons c cs =>
        by_cases hab : a.toNat < b.toNat
        · by_cases hbc : b.toNat < c.toNat
          · have hac : a.toNat < c.toNat := Nat.lt_trans hab hbc
            simp [charLe, hac]
          · by_cases hcb : c.toNat < b.toNat
            · simp [charLe, hbc, hcb] at h2
            · have hac : a.toNat < c.toNat := by omega
              simp [charLe, hac]
        · by_cases hba : b.toNat < a.toNat
          · simp [charLe, hab, hba] at h1
          · simp only [charLe, if_neg hab, if_neg hba] at h1
            by_cases hbc : b.toNat < c.toNat
            · have hac : a.toNat < c.toNat := by omega
              simp [charLe, hac]
            · by_cases hcb : c.toNat < b.toNat
              · simp [charLe, hbc, hcb] at h2
              · simp only [charLe, if_neg hbc, if_neg hcb] at h2
                have hac1 : ¬a.toNat < c.toNat := by omega
                have hac2 : ¬c.toNat < a.toNat := by omega
                simp only [charLe, if_neg hac1, if_neg hac2]
                exact ih bs cs h1 h2

instance : IsTotal String leK := ⟨fun s t => charLe_total s.data t.data⟩

instance : IsTrans String leK := ⟨fun s t u => charLe_trans s.data t.data u.data⟩

/-- Models the sort pandas groupby performs on its distinct string group
keys (sort defaults to true): the keys ordered by Python string
comparison. -/
def sortKeys (l : List String) : List String := List.insertionSort leK l

/-- One input sample of the current-year dataset as `daywise` reads it:
the parsed UTC timestamp column and the TotalCount column. -/
structure Row where
  ts : Timestamp
  total : Int
deriving DecidableEq, Repr

/-- One output row of `daywise`: the formatted date key, the kept
TotalCount, and the day index. -/
structure DayRow where
  date : String
  totalCount : Int
  idx : Int
deriving DecidableEq, Repr

/-- The grouping core of `daywise` on (Date key, TotalCount) pairs:
groupby("Date") sorts the distinct keys and agg("last") keeps the last
value in input order per key; reset_index and the loc column selection
keep Date and TotalCount; idx = arange(0, len) - 3. -/
def daywiseCore (pairs : List (String × Int)) : List DayRow :=
  (sortKeys ((pairs.map Prod.fst).dedup)).enum.map (fun q =>
    { date := q.2,
      totalCount := (((pairs.filter (fun pr => pr.1 == q.2)).getLast?).map Prod.snd).getD 0,
      idx := (q.1 : Int) - 3 })

/-- Embeds `daywise` from src/plots.py on the two columns it uses: the
Date key is strftime m/d/Y of the CurrentDateTimeUtc column (UTC). -/
def daywise (rows : List Row) : List DayRow :=
  daywiseCore (rows.map (fun r => (r.ts.dateStr, r.total)))

/-- Column accessor for a timestamp column. -/
def dfGetTimes (df : DF) (name : String) : List Timestamp :=
  match List.lookup name df with
  | some (Col.times l) => l
  | _ => []

/-- Column accessor for a string column. -/
def dfGetStrs (df : DF) (name : String) : List String :=
  match List.lookup name df with
  | some (Col.strs l) => l
  | _ => []

/-- Column accessor for an integer column. -/
def dfGetInts (df : DF) (name : String) : List Int :=
  match List.lookup name df with
  | some (Col.ints l) => l
  | _ => []

/-- The day-wise aggregate rendered as the DataFrame `daywise` returns. -/
def dayRowsToDF (days : List DayRow) : DF :=
  [("Date", Col.strs (days.map DayRow.date)),
   ("TotalCount", Col.ints (days.map DayRow.totalCount)),
   ("idx", Col.ints (days.map DayRow.idx))]

/-- Heap write: replace a column of the frame at heap index i. -/
def heapSetCol (h : List DF) (i : Nat) (name : String) (c : Col) : List DF :=
  h.set i (dfSetCol (h.getD i []) name c)

/-- Embeds `daywise` together with its effect on the caller's frame: the
heap holds the live DataFrames and p points at the argument.  The body
first takes a working copy (a fresh heap cell), writes the Date column to
that copy, and every later step (groupby/agg/reset_index, loc, the idx
assignment) rebinds `out` to a fresh frame, so the only heap write lands
in the copy. -/
def daywiseHeap (h : List DF) (p : Nat) : List DF × DF :=
  let df := h.getD p []
  let outIdx := h.length
  let h1 := h ++ [df]
  let dates := (dfGetTimes df "CurrentDateTimeUtc").map Timestamp.dateStr
  let h2 := heapSetCol h1 outIdx "Date" (Col.strs dates)
  let out := h2.getD outIdx []
  let pairs := (dfGetStrs out "Date").zip (dfGetInts out "TotalCount")
  (h2, dayRowsToDF (daywiseCore pairs))

/-- Claim C9: `daywise` never mutates its argument — after the call the
caller's DataFrame is exactly the frame it was before, because the body
writes only to a copy. -/
theorem daywise_no_mutation (h : List DF) (p : Nat) (hp : p < h.length) :
    (daywiseHeap h p).1.getD p [] = h.getD p [] ∧
    (daywiseHeap h p).1.length = h.length + 1 := by
  constructor
  · show (heapSetCol (h ++ [h.getD p []]) h.length "Date" _).getD p [] = h.getD p []
    rw [heapSetCol]
    rw [List.getD_eq_getElem?_getD, List.getElem?_set_ne (by omega)]
    rw [List.getElem?_append, if_pos hp]
    rw [List.getD_eq_getElem?_getD]
  · show (heapSetCol (h ++ [h.getD p []]) h.length "Date" _).length = h.length + 1
    rw [heapSetCol, List.length_set, List.length_append]
    rfl

/-- Claim C9 witness: a concrete one-frame heap is unchanged at the
argument position. -/
theorem daywise_no_mutation_witness :
    (daywiseHeap [[("CurrentDateTimeUtc", Col.times [⟨2024, 1, 1, 0, 0⟩]),
        ("TotalCount", Col.ints [5])]] 0).1.getD 0 []
      = List.getD [[("CurrentDateTimeUtc", Col.times [⟨2024, 1, 1, 0, 0⟩]),
        ("TotalCount", Col.ints [5])]] 0 [] :=
  (daywise_no_mutation [[("CurrentDateTimeUtc", Col.times [⟨2024, 1, 1, 0, 0⟩]),
    ("TotalCount", Col.ints [5])]] 0 (by decide)).1

lemma getLast?_filter {α : Type} (p : α → Bool) :
    ∀ (l : List α) (x : α), (l.filter p).getLast? = some x →
      ∃ l1 l2, l = l1 ++ x :: l2 ∧ p x = true ∧ ∀ y ∈ l2, p y = false := by
  intro l
  induction l with
  | nil => intro x h; simp at h
  | cons a t ih =>
    intro x h
    rw [List.filter_cons] at h
    by_cases hpa : p a = true
    · rw [if_pos hpa] at h
      cases hc : t.filter p with
      | nil =>
        rw [hc] at h
        have hxa : a = x := by simpa using h
        subst hxa
        refine ⟨[], t, rfl, hpa, fun y hy => ?_⟩
        have := List.filter_eq_nil_iff.mp hc y hy
        simpa using this
      | cons z zs =>
        rw [hc, List.getLast?_cons_cons, ← hc] at h
        obtain ⟨l1, l2, hrows, hpx, hl2⟩ := ih x h
        exact ⟨a :: l1, l2, by rw [hrows]; rfl, hpx, hl2⟩
    · rw [if_neg hpa] at h
      obtain ⟨l1, l2, hrows, hpx, hl2⟩ := ih x h
      exact ⟨a :: l1, l2, by rw [hrows]; rfl, hpx, hl2⟩

/-- Claim C2 (amended): on a timestamp-ascending dataset, `daywise`
produces exactly one row per distinct formatted date, ordered by the
m/d/Y string key (chronological only when the lexicographic order of
those strings agrees with it), with idx = ordinal position - 3 and each
row carrying the total of the last — hence latest-timestamp — input row
of its date. -/
theorem daywise_spec (rows : List Row)
    (hsort : List.Sorted (fun a b : Row => a.ts.key ≤ b.ts.key) rows) :
    (daywise rows).length = ((rows.map (fun r => r.ts.dateStr)).dedup).length ∧
    ((daywise rows).map DayRow.date).Perm ((rows.map (fun r => r.ts.dateStr)).dedup) ∧
    List.Sorted leK ((daywise rows).map DayRow.date) ∧
    (∀ i, i < (daywise rows).length →
      ((daywise rows).getD i ⟨"", 0, 0⟩).idx = (i : Int) - 3) ∧
    (∀ o ∈ daywise rows, ∃ l1 r l2, rows = l1 ++ r :: l2 ∧
      r.ts.dateStr = o.date ∧ r.total = o.totalCount ∧
      (∀ r2 ∈ l2, r2.ts.dateStr ≠ o.date) ∧
      (∀ r2 ∈ rows, r2.ts.dateStr = o.date → r2.ts.key ≤ r.ts.key)) := by
  have hfst : (rows.map (fun r => (r.ts.dateStr, r.total))).map Prod.fst
      = rows.map (fun r => r.ts.dateStr) := by
    rw [List.map_map]; rfl
  have hmap : (daywise rows).map DayRow.date
      = sortKeys (((rows.map (fun r => (r.ts.dateStr, r.total))).map Prod.fst).dedup) := by
    rw [daywise, daywiseCore, List.map_map]
    have hcomp : (DayRow.date ∘ fun q : Nat × String =>
        ({ date := q.2,
           totalCount := ((((rows.map (fun r => (r.ts.dateStr, r.total))).filter
              (fun pr => pr.1 == q.2)).getLast?).map Prod.snd).getD 0,
           idx := (q.1 : Int) - 3 } : DayRow)) = Prod.snd := by
      funext q; rfl
    rw [hcomp, List.enum_map_snd]
  refine ⟨?_, ?_, ?_, ?_, ?_⟩
  · have := congrArg List.length hmap
    rw [List.length_map] at this
    rw [this, sortKeys, List.length_insertionSort, hfst]
  · rw [hmap, hfst]
    exact List.perm_insertionSort leK _
  · rw [hmap]
    exact List.sorted_insertionSort leK _
  · intro i hi
    rw [daywise, daywiseCore] at hi ⊢
    rw [List.length_map] at hi
    have hi2 : i < ((sortKeys (((rows.map (fun r => (r.ts.dateStr, r.total))).map
        Prod.fst).dedup)).enum.map (fun q =>
          ({ date := q.2,
             totalCount := ((((rows.map (fun r => (r.ts.dateStr, r.total))).filter
                (fun pr => pr.1 == q.2)).getLast?).map Prod.snd).getD 0,
             idx := (q.1 : Int) - 3 } : DayRow))).length := by
      rwa [List.length_map]
    rw [List.getD_eq_getElem?_getD, List.getElem?_eq_getElem hi2, Option.getD_some,
      List.getElem_map, List.getElem_enum]
  · intro o ho
    rw [daywise, daywiseCore] at ho
    rw [List.mem_map] at ho
    obtain ⟨q, hq, rfl⟩ := ho
    have hqs : q.2 ∈ sortKeys (((rows.map (fun r => (r.ts.dateStr, r.total))).map
        Prod.fst).dedup) := by
      have := List.mem_map_of_mem Prod.snd hq
      rwa [List.enum_map_snd] at this
    have hqd : q.2 ∈ rows.map (fun r => r.ts.dateStr) := by
      rw [← hfst, ← List.mem_dedup]
      exact (List.mem_insertionSort leK).mp hqs
    obtain ⟨r0, hr0, hr0d⟩ := List.mem_map.mp hqd
    have hfilterne : (rows.map (fun r => (r.ts.dateStr, r.total))).filter
        (fun pr => pr.1 == q.2) ≠ [] := by
      refine List.ne_nil_of_mem (a := (r0.ts.dateStr, r0.total)) ?_
      rw [List.mem_filter]
      exact ⟨List.mem_map_of_mem _ hr0, by simp [hr0d]⟩
    rcases hlast : ((rows.map (fun r => (r.ts.dateStr, r.total))).filter
        (fun pr => pr.1 == q.2)).getLast? with _ | x
    · exact absurd (List.getLast?_eq_none_iff.mp hlast) hfilterne
    obtain ⟨l1p, l2p, hpairs, hpx, hl2p⟩ := getLast?_filter _ _ _ hlast
    obtain ⟨m1, rest, hrows1, hm1, hrest⟩ := List.map_eq_append_iff.mp hpairs
    obtain ⟨r, m2, hrest2, hr, hm2⟩ := List.map_eq_cons_iff.mp hrest
    subst hrest2
    have hrdate : r.ts.dateStr = q.2 := by
      have hx1 : x.1 = q.2 := by simpa using hpx
      have : r.ts.dateStr = x.1 := by rw [← hr]
      rw [this, hx1]
    have hrtotal : r.total = x.2 := by rw [← hr]
    refine ⟨m1, r, m2, hrows1, hrdate, ?_, ?_, ?_⟩
    · simp only [hlast, Option.map_some, Option.getD_some]
      exact hrtotal
    · intro r2 hr2 hr2d
      have hmem : (r2.ts.dateStr, r2.total) ∈ l2p := by
        rw [← hm2]
        exact List.mem_map_of_mem _ hr2
      have := hl2p _ hmem
      simp only [beq_eq_false_iff_ne] at this
      exact this hr2d
    · intro r2 hr2 hr2d
      rw [hrows1] at hr2 hsort
      rcases List.mem_append.mp hr2 with h1 | h2
      · have := (List.pairwise_append.mp hsort).2.2 r2 h1 r (List.mem_cons_self _ _)
        exact this
      · rcases List.mem_cons.mp h2 with rfl | h3
        · exact le_refl _
        · exfalso
          have hmem : (r2.ts.dateStr, r2.total) ∈ l2p := by
            rw [← hm2]
            exact List.mem_map_of_mem _ h3
          have := hl2p _ hmem
          simp only [beq_eq_false_iff_ne] at this
          exact this hr2d

/-- Claim C2 witness: two same-day samples (totals 4 then 9) followed by
a later day — one output row per distinct date, the last total kept per
date, indices starting at -3. -/
theorem daywise_spec_witness :
    (daywise [⟨⟨2024, 2, 1, 9, 0⟩, 4⟩, ⟨⟨2024, 2, 1, 18, 0⟩, 9⟩, ⟨⟨2024, 2, 2, 9, 0⟩, 12⟩]).length
      = (([⟨⟨2024, 2, 1, 9, 0⟩, 4⟩, ⟨⟨2024, 2, 1, 18, 0⟩, 9⟩,
          ⟨⟨2024, 2, 2, 9, 0⟩, 12⟩] : List Row).map (fun r => r.ts.dateStr)).dedup.length ∧
    ((daywise [⟨⟨2024, 2, 1, 9, 0⟩, 4⟩, ⟨⟨2024, 2, 1, 18, 0⟩, 9⟩,
        ⟨⟨2024, 2, 2, 9, 0⟩, 12⟩]).getD 0 ⟨"", 0, 0⟩).idx = (0 : Int) - 3 :=
  ⟨(daywise_spec [⟨⟨2024, 2, 1, 9, 0⟩, 4⟩, ⟨⟨2024, 2, 1, 18, 0⟩, 9⟩, ⟨⟨2024, 2, 2, 9, 0⟩, 12⟩]
      (by decide)).1,
   (daywise_spec [⟨⟨2024, 2, 1, 9, 0⟩, 4⟩, ⟨⟨2024, 2, 1, 18, 0⟩, 9⟩, ⟨⟨2024, 2, 2, 9, 0⟩, 12⟩]
      (by decide)).2.2.2.1 0 (by decide)⟩

/-- Claim C2 counterexample: a two-row dataset on consecutive days across
a year boundary, timestamp-ascending.  Chronological ordering of the
distinct dates would put 12/31/2023 first (ordinal 0, so idx -3, total 4)
and 01/01/2024 second (idx -2, total 9), but the code sorts the formatted
m/d/Y strings, so 01/01/2024 comes first. -/
theorem daywise_not_chronological :
    daywise [⟨⟨2023, 12, 31, 10, 0⟩, 4⟩, ⟨⟨2024, 1, 1, 10, 0⟩, 9⟩]
      = [⟨"01/01/2024", 9, -3⟩, ⟨"12/31/2023", 4, -2⟩] ∧
    (daywise [⟨⟨2023, 12, 31, 10, 0⟩, 4⟩, ⟨⟨2024, 1, 1, 10, 0⟩, 9⟩]).map DayRow.totalCount
      ≠ [4, 9] ∧
    Timestamp.key ⟨2023, 12, 31, 10, 0⟩ < Timestamp.key ⟨2024, 1, 1, 10, 0⟩ := by
  refine ⟨by decide, by decide, by decide⟩

/-- Gregorian leap-year test. -/
def isLeap (y : Nat) : Bool :=
  y % 4 == 0 && (y % 100 != 0 || y % 400 == 0)

/-- Days in a month of the Gregorian calendar. -/
def daysInMonth (y m : Nat) : Nat :=
  if m == 2 then (if isLeap y then 29 else 28)
  else if m == 4 || m == 6 || m == 9 || m == 11 then 30
  else 31

/-- A calendar date. -/
structure Date where
  year : Nat
  month : Nat
  day : Nat
deriving DecidableEq, Repr

/-- The calendar day after a date: the model of pd.DateOffset(1). -/
def nextDay (d : Date) : Date :=
  if d.day < daysInMonth d.year d.month then ⟨d.year, d.month, d.day + 1⟩
  else if d.month < 12 then ⟨d.year, d.month + 1, 1⟩
  else ⟨d.year + 1, 1, 1⟩

/-- The numeric value of a decimal digit character, none otherwise. -/
def digitVal (c : Char) : Option Nat :=
  if 48 ≤ c.toNat ∧ c.toNat ≤ 57 then some (c.toNat - 48) else none

/-- Parse a nonempty all-digit character list as a decimal number. -/
def parseNatList (l : List Char) : Option Nat :=
  match l with
  | [] => none
  | _ => go l 0
where
  go : List Char → Nat → Option Nat
  | [], acc => some acc
  | c :: cs, acc =>
    match digitVal c with
    | some d => go cs (acc * 10 + d)
    | none => none

/-- Split a character list at dashes. -/
def splitDash : List Char → List Char → List (List Char)
  | [], cur => [cur.reverse]
  | c :: cs, cur =>
    if c = '-' then cur.reverse :: splitDash cs [] else splitDash cs (c :: cur)

/-- Model of pd.to_datetime on an ISO date string YYYY-MM-DD: the parsed
calendar date, or a parse failure. -/
def parseDate (s : String) : Option Date :=
  match splitDash s.data [] with
  | [ys, ms, ds] =>
    match parseNatList ys, parseNatList ms, parseNatList ds with
    | some y, some m, some d =>
      if 1 ≤ m ∧ m ≤ 12 ∧ 1 ≤ d ∧ d ≤ daysInMonth y m then some ⟨y, m, d⟩ else none
    | _, _, _ => none
  | _ => none

/-- One row of the legacy CSV as pd.read_csv loads it, by column
position (the header is then overwritten with canonical names). -/
structure RawCSVRow where
  c0 : Int
  c1 : String
  c2 : Int
  c3 : Int
  c4 : Int
  c5 : Int
  c6 : Int
deriving DecidableEq, Repr

/-- One row of the loaded legacy day-wise dataset, under the canonical
column names idx, date, total, unapproved, approved, partially_paid,
paid. -/
structure OldDashRow where
  idx : Int
  date : Date
  total : Int
  unapproved : Int
  approved : Int
  partially_paid : Int
  paid : Int
deriving DecidableEq, Repr

/-- Embeds `read_old_dashboard` from src/plots.py: rename the seven
positional columns to the canonical names, truncate each date string to
its first 10 characters, parse it and shift it one day forward, and
subtract 4 from the idx column.  An unparseable date aborts the run with
no partial result (none). -/
def read_old_dashboard (rows : List RawCSVRow) : Option (List OldDashRow) :=
  rows.mapM (fun r =>
    (parseDate (String.mk (r.c1.data.take 10))).map (fun d =>
      { idx := r.c0 - 4, date := nextDay d, total := r.c2, unapproved := r.c3,
        approved := r.c4, partially_paid := r.c5, paid := r.c6 }))

lemma mapM_option_getD {α β : Type} (f : α → Option β) :
    ∀ (l : List α) (out : List β), l.mapM f = some out →
      out.length = l.length ∧
      ∀ i (a0 : α) (b0 : β), i < l.length → f (l.getD i a0) = some (out.getD i b0) := by
  intro l
  induction l with
  | nil =>
    intro out h
    simp only [List.mapM_nil, pure, Option.some.injEq] at h
    subst h
    exact ⟨rfl, fun i _ _ hi => absurd hi (by simp)⟩
  | cons a t ih =>
    intro out h
    rw [List.mapM_cons] at h
    cases hfa : f a with
    | none => rw [hfa] at h; simp [Option.bind] at h
    | some b =>
      rw [hfa] at h
      cases hmt : t.mapM f with
      | none => rw [hmt] at h; simp [Option.bind] at h
      | some bs =>
        rw [hmt] at h
        simp only [Option.bind_some, Option.pure_def, Option.bind_eq_bind,
          Option.some_bind, Option.some.injEq] at h
        subst h
        obtain ⟨hl, hp⟩ := ih bs hmt
        refine ⟨by simp [hl], ?_⟩
        intro i a0 b0 hi
        cases i with
        | zero => simpa [List.getD_cons_zero] using hfa
        | succ n =>
          simp only [List.getD_cons_succ]
          exact hp n a0 b0 (by simpa using hi)

/-- Claim C5: `read_old_dashboard` renames the legacy columns to the
canonical order, truncates every date string to its first 10 characters,
parses it and shifts the date one day forward, and decreases idx by 4,
leaving total and the other count columns unchanged. -/
theorem read_old_dashboard_spec (rows : List RawCSVRow) (out : List OldDashRow)
    (hok : read_old_dashboard rows = some out) :
    out.length = rows.length ∧
    ∀ i, i < rows.length →
      ∃ d, parseDate (String.mk (((rows.getD i ⟨0, "", 0, 0, 0, 0, 0⟩).c1).data.take 10))
          = some d ∧
        out.getD i ⟨0, ⟨0, 0, 0⟩, 0, 0, 0, 0, 0⟩ =
          { idx := (rows.getD i ⟨0, "", 0, 0, 0, 0, 0⟩).c0 - 4,
            date := nextDay d,
            total := (rows.getD i ⟨0, "", 0, 0, 0, 0, 0⟩).c2,
            unapproved := (rows.getD i ⟨0, "", 0, 0, 0, 0, 0⟩).c3,
            approved := (rows.getD i ⟨0, "", 0, 0, 0, 0, 0⟩).c4,
            partially_paid := (rows.getD i ⟨0, "", 0, 0, 0, 0, 0⟩).c5,
            paid := (rows.getD i ⟨0, "", 0, 0, 0, 0, 0⟩).c6 } := by
  obtain ⟨hl, hp⟩ := mapM_option_getD _ rows out hok
  refine ⟨hl, ?_⟩
  intro i hi
  have h := hp i ⟨0, "", 0, 0, 0, 0, 0⟩ ⟨0, ⟨0, 0, 0⟩, 0, 0, 0, 0, 0⟩ hi
  rcases hpd : parseDate (String.mk (((rows.getD i ⟨0, "", 0, 0, 0, 0, 0⟩).c1).data.take 10)) with
    _ | d
  · rw [hpd, Option.map_none'] at h
    cases h
  · rw [hpd, Option.map_some'] at h
    injection h with h2
    exact ⟨d, rfl, h2.symm⟩

/-- Claim C5 witness: a concrete legacy row with a timestamped date
string — truncated to 2023-05-01, shifted to 2023-05-02, idx 10 → 6. -/
theorem read_old_dashboard_spec_witness :
    ∃ d, parseDate (String.mk (("2023-05-01 07:00:00" : String).data.take 10)) = some d ∧
      (([⟨6, ⟨2023, 5, 2⟩, 100, 1, 2, 3, 94⟩] : List OldDashRow).getD 0
          ⟨0, ⟨0, 0, 0⟩, 0, 0, 0, 0, 0⟩) =
        ({ idx := 10 - 4, date := nextDay d, total := 100, unapproved := 1, approved := 2,
           partially_paid := 3, paid := 94 } : OldDashRow) :=
  (read_old_dashboard_spec [⟨10, "2023-05-01 07:00:00", 100, 1, 2, 3, 94⟩]
      [⟨6, ⟨2023, 5, 2⟩, 100, 1, 2, 3, 94⟩] (by decide)).2 0 (by decide)

/-- One raw record of the line-delimited JSON log as pd.read_json loads
it: the four fields the pipeline keeps, plus whatever other fields the
source carries (discarded by the column selection). -/
structure RawRecord where
  currentDateTimeUtc : String
  totalCount : Int
  status : Dict Int
  sponsor : Dict Int
  extra : Dict Int

/-- Modelled from the spec: the raw timestamp strings (the data file
data/log.txt is not under src/) are ISO-8601 UTC instants, and
pd.to_datetime turns them into timezone-aware UTC timestamps; our
Timestamp is a UTC instant by construction.  Parses
YYYY-MM-DDTHH:MM[:SS...] to minute resolution. -/
def parseTimestamp (s : String) : Option Timestamp :=
  match parseNatList (s.data.take 4), parseNatList ((s.data.drop 5).take 2),
      parseNatList ((s.data.drop 8).take 2), parseNatList ((s.data.drop 11).take 2),
      parseNatList ((s.data.drop 14).take 2) with
  | some y, some mo, some d, some hh, some mi =>
    if 1 ≤ mo ∧ mo ≤ 12 ∧ 1 ≤ d ∧ d ≤ daysInMonth y mo ∧ hh < 24 ∧ mi < 60 then
      some ⟨y, mo, d, hh, mi⟩
    else none
  | _, _, _, _, _ => none

/-- Strip the fields outside {timestamp, total count, status, sponsor}
from every record. -/
def eraseExtras (rs : List RawRecord) : List RawRecord :=
  rs.map (fun r => { r with extra := [] })

/-- Embeds `read_parse_input` from src/plots.py.  The argument models the
outcome of pd.read_json(filename, lines = True): a parse failure is
turned into the sys.exit diagnostic naming the underlying error.  On
success the loc column selection keeps only CurrentDateTimeUtc,
TotalCount, Status and Sponsor; the timestamp column is parsed (an
unparseable timestamp raises out of the run — no partial dataset); the
two dict columns are parsed to tuples and expanded by `split_tuplecol`. -/
def read_parse_input (source : Except String (List RawRecord)) : Except String DF :=
  match source with
  | Except.error e =>
    Except.error ("read_parse_input: Error while loading source data: " ++ e)
  | Except.ok records =>
    match records.mapM (fun r => parseTimestamp r.currentDateTimeUtc) with
    | none => Except.error "ValueError: could not parse timestamp column"
    | some ts =>
      let df : DF :=
        [("CurrentDateTimeUtc", Col.times ts),
         ("TotalCount", Col.ints (records.map (fun r => r.totalCount))),
         ("Status", Col.tuples (records.map (fun r => parse_status_dict r.status))),
         ("Sponsor", Col.tuples (records.map (fun r => parse_sponsor_dict r.sponsor)))]
      match split_tuplecol df "Status" ["new", "approved", "partial", "paid", "checkedin"] with
      | Except.error e => Except.error e
      | Except.ok df1 =>
        match split_tuplecol df1 "Sponsor" ["normal", "sponsor", "supersponsor"] with
        | Except.error e => Except.error e
        | Except.ok df2 => Except.ok df2

lemma mapM_map {α β γ : Type} (f : α → β) (g : β → Option γ) :
    ∀ l : List α, (l.map f).mapM g = l.mapM (fun a => g (f a)) := by
  intro l
  induction l with
  | nil => rfl
  | cons a t ih => rw [List.map_cons, List.mapM_cons, List.mapM_cons, ih]

/-- Claim C6: `read_parse_input` turns a source parse failure into a
fatal error carrying the underlying failure, with no partial dataset;
on success its result depends only on the four retained fields (all
others are discarded), its columns are exactly the retained/derived ones,
the timestamp column holds the parsed UTC instants, and TotalCount
passes through. -/
theorem read_parse_input_spec (e : String) (rs : List RawRecord) (ts : List Timestamp)
    (hts : rs.mapM (fun r => parseTimestamp r.currentDateTimeUtc) = some ts) :
    read_parse_input (Except.error e)
      = Except.error ("read_parse_input: Error while loading source data: " ++ e) ∧
    read_parse_input (Except.ok rs) = read_parse_input (Except.ok (eraseExtras rs)) ∧
    ∃ df, read_parse_input (Except.ok rs) = Except.ok df ∧
      df.map Prod.fst = ["CurrentDateTimeUtc", "TotalCount", "new", "approved", "partial",
        "paid", "checkedin", "normal", "sponsor", "supersponsor"] ∧
      List.lookup "CurrentDateTimeUtc" df = some (Col.times ts) ∧
      List.lookup "TotalCount" df = some (Col.ints (rs.map (fun r => r.totalCount))) := by
  have hts2 : (eraseExtras rs).mapM (fun r => parseTimestamp r.currentDateTimeUtc)
      = rs.mapM (fun r => parseTimestamp r.currentDateTimeUtc) := by
    rw [eraseExtras, mapM_map]
  have hTC : (eraseExtras rs).map (fun r => r.totalCount)
      = rs.map (fun r => r.totalCount) := by
    rw [eraseExtras, List.map_map]; rfl
  have hSt : (eraseExtras rs).map (fun r => parse_status_dict r.status)
      = rs.map (fun r => parse_status_dict r.status) := by
    rw [eraseExtras, List.map_map]; rfl
  have hSp : (eraseExtras rs).map (fun r => parse_sponsor_dict r.sponsor)
      = rs.map (fun r => parse_sponsor_dict r.sponsor) := by
    rw [eraseExtras, List.map_map]; rfl
  refine ⟨rfl, ?_, ?_⟩
  · simp only [read_parse_input]
    rw [hts2, hTC, hSt, hSp]
  · have heq1 : split_tuplecol
        [("CurrentDateTimeUtc", Col.times ts),
         ("TotalCount", Col.ints (rs.map (fun r => r.totalCount))),
         ("Status", Col.tuples (rs.map (fun r => parse_status_dict r.status))),
         ("Sponsor", Col.tuples (rs.map (fun r => parse_sponsor_dict r.sponsor)))]
        "Status" ["new", "approved", "partial", "paid", "checkedin"]
        = Except.ok (splitResult
            [("CurrentDateTimeUtc", Col.times ts),
             ("TotalCount", Col.ints (rs.map (fun r => r.totalCount))),
             ("Status", Col.tuples (rs.map (fun r => parse_status_dict r.status))),
             ("Sponsor", Col.tuples (rs.map (fun r => parse_sponsor_dict r.sponsor)))]
            "Status" ["new", "approved", "partial", "paid", "checkedin"]
            (rs.map (fun r => parse_status_dict r.status))) := by
      refine split_tuplecol_ok _ _ _ _ rfl ?_ ?_ (by decide) (by decide)
      · intro x hx
        obtain ⟨r, _, rfl⟩ := List.mem_map.mp hx
        rfl
      · intro name hn
        fin_cases hn <;> rfl
    have heq2 : split_tuplecol
        (splitResult
          [("CurrentDateTimeUtc", Col.times ts),
           ("TotalCount", Col.ints (rs.map (fun r => r.totalCount))),
           ("Status", Col.tuples (rs.map (fun r => parse_status_dict r.status))),
           ("Sponsor", Col.tuples (rs.map (fun r => parse_sponsor_dict r.sponsor)))]
          "Status" ["new", "approved", "partial", "paid", "checkedin"]
          (rs.map (fun r => parse_status_dict r.status)))
        "Sponsor" ["normal", "sponsor", "supersponsor"]
        = Except.ok (splitResult
            (splitResult
              [("CurrentDateTimeUtc", Col.times ts),
               ("TotalCount", Col.ints (rs.map (fun r => r.totalCount))),
               ("Status", Col.tuples (rs.map (fun r => parse_status_dict r.status))),
               ("Sponsor", Col.tuples (rs.map (fun r => parse_sponsor_dict r.sponsor)))]
              "Status" ["new", "approved", "partial", "paid", "checkedin"]
              (rs.map (fun r => parse_status_dict r.status)))
            "Sponsor" ["normal", "sponsor", "supersponsor"]
            (rs.map (fun r => parse_sponsor_dict r.sponsor))) := by
      refine split_tuplecol_ok _ _ _ _ rfl ?_ ?_ (by decide) (by decide)
      · intro x hx
        obtain ⟨r, _, rfl⟩ := List.mem_map.mp hx
        rfl
      · intro name hn
        fin_cases hn <;> rfl
    refine ⟨splitResult
        (splitResult
          [("CurrentDateTimeUtc", Col.times ts),
           ("TotalCount", Col.ints (rs.map (fun r => r.totalCount))),
           ("Status", Col.tuples (rs.map (fun r => parse_status_dict r.status))),
           ("Sponsor", Col.tuples (rs.map (fun r => parse_sponsor_dict r.sponsor)))]
          "Status" ["new", "approved", "partial", "paid", "checkedin"]
          (rs.map (fun r => parse_status_dict r.status)))
        "Sponsor" ["normal", "sponsor", "supersponsor"]
        (rs.map (fun r => parse_sponsor_dict r.sponsor)), ?_, ?_, ?_, ?_⟩
    · simp only [read_parse_input, hts]
      simp only [heq1, heq2]
    · rfl
    · rfl
    · rfl

/-- Claim C6 witness: a concrete one-record source with an extra field,
and a concrete parse failure. -/
theorem read_parse_input_spec_witness :
    read_parse_input (Except.error "Expected object or value")
      = Except.error ("read_parse_input: Error while loading source data: "
          ++ "Expected object or value") ∧
    read_parse_input (Except.ok [⟨"2024-02-01T10:30:00.000Z", 10,
        [("new", 3), ("paid", 7)], [("sponsor", 5), ("normal", 5)], [("Ignored", 99)]⟩])
      = read_parse_input (Except.ok (eraseExtras [⟨"2024-02-01T10:30:00.000Z", 10,
        [("new", 3), ("paid", 7)], [("sponsor", 5), ("normal", 5)], [("Ignored", 99)]⟩])) ∧
    ∃ df, read_parse_input (Except.ok [⟨"2024-02-01T10:30:00.000Z", 10,
        [("new", 3), ("paid", 7)], [("sponsor", 5), ("normal", 5)], [("Ignored", 99)]⟩])
        = Except.ok df ∧
      df.map Prod.fst = ["CurrentDateTimeUtc", "TotalCount", "new", "approved", "partial",
        "paid", "checkedin", "normal", "sponsor", "supersponsor"] ∧
      List.lookup "CurrentDateTimeUtc" df = some (Col.times [⟨2024, 2, 1, 10, 30⟩]) ∧
      List.lookup "TotalCount" df = some (Col.ints
        (([⟨"2024-02-01T10:30:00.000Z", 10, [("new", 3), ("paid", 7)],
            [("sponsor", 5), ("normal", 5)], [("Ignored", 99)]⟩] : List RawRecord).map
          (fun r => r.totalCount))) :=
  read_parse_input_spec "Expected object or value"
    [⟨"2024-02-01T10:30:00.000Z", 10, [("new", 3), ("paid", 7)],
      [("sponsor", 5), ("normal", 5)], [("Ignored", 99)]⟩]
    [⟨2024, 2, 1, 10, 30⟩] (by decide)

end Reg2024
